import Mathlib

/-!
# Verification of the tapview touchpad decoders

Shallow embedding of the heatmap register protocol (`src/heatmap/protocol.rs`,
`src/heatmap/chips.rs`), the calibration drift detector
(`src/heatmap/backend.rs`), the multitouch state machine (`src/multitouch.rs`)
and the HID report-descriptor scan (`src/heatmap/discovery.rs`), together with
proofs of the specified properties.

Modelling conventions:
* A HID device is modelled as an oracle `Dev` mapping the index of an I/O
  operation (`set_feature` / `get_feature` calls are counted together, in
  order) to the device's response.  Every protocol function is embedded as a
  function of the oracle and the current operation index, returning the new
  index, the trace of operations it attempted, and its result.
* `usize` values are `Nat`; a subtraction that would underflow in a debug
  build of the Rust source (a panic) is represented by an explicit
  `panicUnderflow` outcome.  Byte values (`u8`) are `Nat` reduced `% 256`
  where the source performs an `as u8` cast or reads a byte-typed value.
* The unbounded `while` loop of `burst_read` is embedded with an explicit
  fuel parameter; `outOfFuel` means the loop had not terminated after the
  given number of iterations.
* `f64` arithmetic of the drift detector is modelled by exact rational
  arithmetic (`ℚ`); the verified properties are structural properties of the
  algorithm (buffer management, the defining equations of the EMA and drift
  rate), not rounding behaviour.
-/

/-- Response of the device oracle to one I/O operation.
`setOk` answers a `set_feature` call (`false` = `IoError`);
`getResp` answers a `get_feature` call (`none` = `IoError`,
`some (n, payload)` = the ioctl reported `n` bytes populated and the bytes at
buffer offsets `1, 2, …` afterwards are `payload`). -/
structure DevResp where
  setOk : Bool
  getResp : Option (Nat × List Nat)

/-- A device oracle: the response to the `k`-th I/O operation. -/
abbrev Dev := Nat → DevResp

/-- One attempted I/O operation, as recorded in a trace:
`setF data` is `set_feature(&data)`, `getF bufLen` is `get_feature` into a
buffer of `bufLen` bytes. -/
inductive DevOp where
  | setF (data : List Nat)
  | getF (bufLen : Nat)
deriving DecidableEq

/-- Report ID of the single-register protocol (`REPORT_SINGLE = 0x42`). -/
def REPORT_SINGLE : Nat := 0x42

/-- Report ID of the burst protocol (`REPORT_BURST = 0x41`). -/
def REPORT_BURST : Nat := 0x41

/-- Read-flag OR-ed into the bank byte (`READ_FLAG = 0x10`). -/
def READ_FLAG : Nat := 0x10

/-- `write_reg(dev, bank, addr, value)` from `src/heatmap/protocol.rs`:
`set_feature(&[REPORT_SINGLE, addr, bank, value])`.  Returns the next
operation index, the trace, and `none` on `IoError`. -/
def writeReg (d : Dev) (k bank addr value : Nat) :
    Nat × List DevOp × Option Unit :=
  (k + 1, [DevOp.setF [REPORT_SINGLE, addr, bank, value]],
    if (d k).setOk then some () else none)

/-- `read_reg(dev, bank, addr)` from `src/heatmap/protocol.rs`:
`set_feature(&[REPORT_SINGLE, addr, bank | READ_FLAG, 0])`, then
`get_feature` into a 4-byte buffer; the result is `buf[3]` (a `u8`, hence
`% 256`; bytes the device did not populate keep their initial value 0). -/
def readReg (d : Dev) (k bank addr : Nat) : Nat × List DevOp × Option Nat :=
  if (d k).setOk then
    match (d (k + 1)).getResp with
    | none =>
        (k + 2, [DevOp.setF [REPORT_SINGLE, addr, Nat.lor bank READ_FLAG, 0],
                 DevOp.getF 4], none)
    | some (_, payload) =>
        (k + 2, [DevOp.setF [REPORT_SINGLE, addr, Nat.lor bank READ_FLAG, 0],
                 DevOp.getF 4], some (payload.getD 2 0 % 256))
  else
    (k + 1, [DevOp.setF [REPORT_SINGLE, addr, Nat.lor bank READ_FLAG, 0]], none)

/-- Outcome of `burst_read`. -/
inductive BurstOut where
  | ok (data : List Nat)
  | ioErr
  | panicUnderflow
  | outOfFuel
deriving DecidableEq

/-- The loop of `burst_read(dev, total_bytes, report_len)` from
`src/heatmap/protocol.rs`.  `buf_size = 1 + report_len`; each iteration calls
`get_feature`, computes `payload_end = min n buf_size`,
`take = min (total - result.len()) (payload_end - 1)` and appends
`buf[1 .. 1+take]` (the first `take` bytes of the chunk's payload).
When `payload_end = 0` the Rust expression `payload_end - 1` underflows a
`usize`: `panicUnderflow`. -/
def burstReadAux (d : Dev) (total reportLen : Nat) :
    Nat → Nat → List Nat → Nat × List DevOp × BurstOut
  | 0, k, acc =>
      if acc.length < total then (k, [], BurstOut.outOfFuel)
      else (k, [], BurstOut.ok acc)
  | fuel + 1, k, acc =>
      if acc.length < total then
        match (d k).getResp with
        | none => (k + 1, [DevOp.getF (1 + reportLen)], BurstOut.ioErr)
        | some (n, payload) =>
            let payloadEnd := min n (1 + reportLen)
            if payloadEnd = 0 then
              (k + 1, [DevOp.getF (1 + reportLen)], BurstOut.panicUnderflow)
            else
              let tk := min (total - acc.length) (payloadEnd - 1)
              let r := burstReadAux d total reportLen fuel (k + 1)
                (acc ++ payload.take tk)
              (r.1, DevOp.getF (1 + reportLen) :: r.2.1, r.2.2)
      else (k, [], BurstOut.ok acc)

/-- `burst_read` starting at operation index `k` with an empty accumulator. -/
def burstRead (d : Dev) (total reportLen fuel k : Nat) :
    Nat × List DevOp × BurstOut :=
  burstReadAux d total reportLen fuel k []

/-- The five supported chip variants (`src/heatmap/chips.rs`). -/
inductive ChipVariant where
  | PJP274
  | PJP343
  | PJP255
  | PJP215
  | PLP239
deriving DecidableEq

/-- Result of `identify_chip`: a variant, the `UnsupportedChip` error
(carrying the offending part ID), or a propagated I/O error. -/
inductive IdResult where
  | ok (c : ChipVariant)
  | unsupported (partId : Nat)
  | ioErr
deriving DecidableEq

/-- The part-ID `match` of `identify_chip` (`src/heatmap/chips.rs`). -/
def chipOfPartId (partId : Nat) : IdResult :=
  if partId = 0x0274 then IdResult.ok ChipVariant.PJP274
  else if partId = 0x0343 then IdResult.ok ChipVariant.PJP343
  else if partId = 0x0255 then IdResult.ok ChipVariant.PJP255
  else if partId = 0x0215 then IdResult.ok ChipVariant.PJP215
  else if partId = 0x0239 then IdResult.ok ChipVariant.PLP239
  else IdResult.unsupported partId

/-- `identify_chip(dev)` from `src/heatmap/chips.rs`: read Bank 0 registers
0x78 (low byte) and 0x79 (high byte), combine as `lo | (hi << 8)`, and map
through the part-ID table. -/
def identifyChip (d : Dev) (k : Nat) : Nat × List DevOp × IdResult :=
  match readReg d k 0 0x78 with
  | (k1, t1, none) => (k1, t1, IdResult.ioErr)
  | (k1, t1, some lo) =>
    match readReg d k1 0 0x79 with
    | (k2, t2, none) => (k2, t1 ++ t2, IdResult.ioErr)
    | (k2, t2, some hi) =>
        (k2, t1 ++ t2, chipOfPartId (Nat.lor lo (Nat.shiftLeft hi 8)))

/-- Outcome of a frame-acquisition sequence. -/
inductive FrameOut where
  | ok (data : List Nat)
  | ioErr
  | panicUnderflow
  | outOfFuel
deriving DecidableEq

/-- `read_frame_pjp274` from `src/heatmap/chips.rs` (Family A,
PJP274/PJP343): write `(cols-1) as u8` to Bank 6 addr 0x0E and
`(rows-1) as u8` to addr 0x0F, select SRAM frame 0 (0x09 = 0x05), assert
chip-select (0x0A = 0x00), burst-read `totalBytes`, deassert chip-select
(0x0A = 0x01).  Every `?` propagates the error immediately. -/
def readFramePJP274 (d : Dev) (rows cols totalBytes burstLen fuel : Nat) :
    List DevOp × FrameOut :=
  let w1 := writeReg d 0 6 0x0E ((cols - 1) % 256)
  match w1.2.2 with
  | none => (w1.2.1, FrameOut.ioErr)
  | some _ =>
  let w2 := writeReg d w1.1 6 0x0F ((rows - 1) % 256)
  match w2.2.2 with
  | none => (w1.2.1 ++ w2.2.1, FrameOut.ioErr)
  | some _ =>
  let w3 := writeReg d w2.1 6 0x09 0x05
  match w3.2.2 with
  | none => (w1.2.1 ++ w2.2.1 ++ w3.2.1, FrameOut.ioErr)
  | some _ =>
  let w4 := writeReg d w3.1 6 0x0A 0x00
  match w4.2.2 with
  | none => (w1.2.1 ++ w2.2.1 ++ w3.2.1 ++ w4.2.1, FrameOut.ioErr)
  | some _ =>
  let b := burstRead d totalBytes burstLen fuel w4.1
  match b.2.2 with
  | BurstOut.ioErr =>
      (w1.2.1 ++ w2.2.1 ++ w3.2.1 ++ w4.2.1 ++ b.2.1, FrameOut.ioErr)
  | BurstOut.panicUnderflow =>
      (w1.2.1 ++ w2.2.1 ++ w3.2.1 ++ w4.2.1 ++ b.2.1, FrameOut.panicUnderflow)
  | BurstOut.outOfFuel =>
      (w1.2.1 ++ w2.2.1 ++ w3.2.1 ++ w4.2.1 ++ b.2.1, FrameOut.outOfFuel)
  | BurstOut.ok data =>
      let w5 := writeReg d b.1 6 0x0A 0x01
      match w5.2.2 with
      | none =>
          (w1.2.1 ++ w2.2.1 ++ w3.2.1 ++ w4.2.1 ++ b.2.1 ++ w5.2.1,
           FrameOut.ioErr)
      | some _ =>
          (w1.2.1 ++ w2.2.1 ++ w3.2.1 ++ w4.2.1 ++ b.2.1 ++ w5.2.1,
           FrameOut.ok data)

/-- A well-behaved burst response: `get_feature` succeeds, reports at least
one payload byte beyond the report-ID byte and no more than the buffer can
hold, and yields a full payload. -/
def goodResp (reportLen : Nat) (r : DevResp) : Prop :=
  ∃ n p, r.getResp = some (n, p) ∧ 2 ≤ n ∧ n ≤ 1 + reportLen ∧
    p.length = reportLen

example : (burstRead (fun _ => ⟨true, some (9, List.replicate 8 7)⟩) 16 8 5 0).2.2
    = BurstOut.ok (List.replicate 16 7) := by decide

example : (burstRead (fun _ => ⟨true, some (0, List.replicate 8 0)⟩) 2 8 5 0).2.2
    = BurstOut.panicUnderflow := by decide

example : (burstRead (fun _ => ⟨true, some (1, List.replicate 8 0)⟩) 2 8 5 0).2.2
    = BurstOut.outOfFuel := by decide

/-! ## Calibration drift detector (`src/heatmap/backend.rs`) -/

/-- `EMA_ALPHA = 0.005`. -/
def EMA_ALPHA : ℚ := 5 / 1000

/-- `DRIFT_WINDOW = 500`. -/
def DRIFT_WINDOW : Nat := 500

/-- `DRIFT_THRESHOLD = 0.02`. -/
def DRIFT_THRESHOLD : ℚ := 2 / 100

/-- Per-thread state of the drift detector: the EMA accumulator (`None`
before the first frame), the history buffer of smoothed means, and the
edge-trigger latch. -/
structure CalibState where
  ema : Option ℚ
  history : List ℚ
  wasCalibrating : Bool

/-- Per-frame outputs of the drift detector. -/
structure CalibOut where
  smoothedMean : ℚ
  driftRate : ℚ
  calibrating : Bool

/-- The EMA update from `src/heatmap/backend.rs` lines 129-132:
`Some prev => prev + EMA_ALPHA * (mean - prev)`, `None => mean`. -/
def emaStep (prev : Option ℚ) (mean : ℚ) : ℚ :=
  match prev with
  | some p => p + EMA_ALPHA * (mean - p)
  | none => mean

/-- One frame of the drift detector (`src/heatmap/backend.rs` lines
129-166): EMA update, `ema_history.remove(0)` when the buffer already holds
`DRIFT_WINDOW` entries, push of the smoothed mean, drift rate
`(smoothed - history[0]) / history.len()` once at least two entries exist,
and `calibrating = history.len() >= DRIFT_WINDOW && |drift| > threshold`. -/
def calibStep (s : CalibState) (mean : ℚ) : CalibState × CalibOut :=
  let smoothed := emaStep s.ema mean
  let hist0 := if DRIFT_WINDOW ≤ s.history.length then s.history.drop 1
               else s.history
  let hist := hist0 ++ [smoothed]
  let drift : ℚ := if 2 ≤ hist.length then
      (smoothed - hist.headD 0) / (hist.length : ℚ)
    else 0
  let calib := decide (DRIFT_WINDOW ≤ hist.length) &&
      decide (DRIFT_THRESHOLD < |drift|)
  ({ ema := some smoothed, history := hist, wasCalibrating := calib },
   { smoothedMean := smoothed, driftRate := drift, calibrating := calib })

/-- The sequence of smoothed means produced by feeding the constant mean `m`
to a fresh detector: `emaSeq m n` is the smoothed mean after `n + 1` frames. -/
def emaSeq (m : ℚ) : Nat → ℚ
  | 0 => emaStep none m
  | n + 1 => emaStep (some (emaSeq m n)) m

/-! ## Multitouch state machine (`src/multitouch.rs`) -/

/-- `MAX_TOUCH_POINTS = 10`. -/
def MAX_TOUCH_POINTS : Nat := 10

/-- One slot of the contact table (`TouchData`).  All fields default to
`false` / `0` as in the derived Rust `Default`. -/
structure TouchData where
  used : Bool
  pressed : Bool
  pressedDouble : Bool
  trackingId : Int
  positionX : Int
  positionY : Int
  pressure : Int
  distance : Int
  touchMajor : Int
  touchMinor : Int
  widthMajor : Int
  widthMinor : Int
  orientation : Int
  toolX : Int
  toolY : Int
  toolType : Int
deriving DecidableEq

/-- `TouchData::default()`. -/
def td0 : TouchData :=
  ⟨false, false, false, 0, 0, 0, 0, 0, 0, 0, 0, 0, 0, 0, 0, 0⟩

/-- `ButtonState`. -/
structure ButtonState where
  left : Bool
  right : Bool
  middle : Bool
deriving DecidableEq

/-- `MTState`: `NeedsReset` exists in the source but is never assigned. -/
inductive MTState where
  | Loading
  | ReadReady
  | NeedsReset
deriving DecidableEq

/-- `MTStateMachine`: decoder state, current-slot pointer, the contact
table (a list of length `MAX_TOUCH_POINTS`), and the button state. -/
structure MTStateMachine where
  state : MTState
  slot : Option Nat
  touches : List TouchData
  buttons : ButtonState
deriving DecidableEq

/-- `MTStateMachine::default()` / `::new()`. -/
def freshMT : MTStateMachine :=
  { state := MTState.Loading, slot := none,
    touches := List.replicate MAX_TOUCH_POINTS td0,
    buttons := ⟨false, false, false⟩ }

/-- `MTStateMachine::reset()`: back to `Loading`, clear the slot pointer,
clear every `used` flag (other fields keep their stale values). -/
def MTStateMachine.reset (m : MTStateMachine) : MTStateMachine :=
  { m with state := MTState.Loading, slot := none, touches := m.touches.map (fun t => { t with used := false }) }

/-- Event kinds distinguished by `process` (`EventType::KEY`, `ABSOLUTE`,
`MISC`, `SYNCHRONIZATION`, anything else). -/
inductive EvKind where
  | key
  | absolute
  | misc
  | sync
  | other
deriving DecidableEq

/-- One kernel input event: kind, numeric code, signed value. -/
structure InputEvent where
  kind : EvKind
  code : Nat
  value : Int
deriving DecidableEq

/-- Update slot `i` of the contact table in place. -/
def updateTouch (ts : List TouchData) (i : Nat) (f : TouchData → TouchData) :
    List TouchData :=
  ts.set i (f (ts.getD i td0))

/-- The statement executed at the top of the `EventType::ABSOLUTE` arm:
`match self.state { Loading => (), NeedsReset => self.reset(), ReadReady => () }`. -/
def MTStateMachine.preAbs (m : MTStateMachine) : MTStateMachine :=
  match m.state with
  | MTState.Loading => m
  | MTState.NeedsReset => m.reset
  | MTState.ReadReady => m

/-- `MTStateMachine::process` (`src/multitouch.rs` lines 90-195):
`BTN_TOUCH = 0x14a`, `BTN_TOOL_DOUBLETAP = 0x14d`, `BTN_LEFT/RIGHT/MIDDLE =
0x110/0x111/0x112`, `ABS_MT_SLOT = 0x2f`, `ABS_MT_TRACKING_ID = 0x39`, and
the twelve per-contact axis codes. -/
def MTStateMachine.process (m : MTStateMachine) (e : InputEvent) :
    MTStateMachine :=
  match e.kind with
  | EvKind.key =>
      if e.code = 0x14a then { m with touches := updateTouch m.touches 0 (fun t => { t with pressed := e.value = 1 }) }
      else if e.code = 0x14d then { m with touches := updateTouch m.touches 0 (fun t => { t with pressedDouble := e.value = 1 }) }
      else if e.code = 0x110 then { m with buttons := { m.buttons with left := e.value = 1 } }
      else if e.code = 0x111 then { m with buttons := { m.buttons with right := e.value = 1 } }
      else if e.code = 0x112 then { m with buttons := { m.buttons with middle := e.value = 1 } }
      else m
  | EvKind.absolute =>
      let m1 := m.preAbs
      let slot := m1.slot.getD 0
      let v := e.value
      if e.code = 0x2f then
        if 0 ≤ v ∧ v < (MAX_TOUCH_POINTS : Int) then
          { m1 with slot := some v.toNat, touches := updateTouch m1.touches v.toNat (fun t => { t with used := true }) }
        else m1
      else if e.code = 0x39 then
        if v < 0 then { m1 with touches := updateTouch m1.touches slot (fun t => { t with used := false }) }
        else { m1 with touches := updateTouch m1.touches slot (fun t => { t with trackingId := v }) }
      else if e.code = 0x35 then { m1 with touches := updateTouch m1.touches slot (fun t => { t with used := true, positionX := v }) }
      else if e.code = 0x36 then { m1 with touches := updateTouch m1.touches slot (fun t => { t with used := true, positionY := v }) }
      else if e.code = 0x3a then { m1 with touches := updateTouch m1.touches slot (fun t => { t with used := true, pressure := v }) }
      else if e.code = 0x3b then { m1 with touches := updateTouch m1.touches slot (fun t => { t with used := true, distance := v }) }
      else if e.code = 0x30 then { m1 with touches := updateTouch m1.touches slot (fun t => { t with used := true, touchMajor := v }) }
      else if e.code = 0x31 then { m1 with touches := updateTouch m1.touches slot (fun t => { t with used := true, touchMinor := v }) }
      else if e.code = 0x32 then { m1 with touches := updateTouch m1.touches slot (fun t => { t with used := true, widthMajor := v }) }
      else if e.code = 0x33 then { m1 with touches := updateTouch m1.touches slot (fun t => { t with used := true, widthMinor := v }) }
      else if e.code = 0x34 then { m1 with touches := updateTouch m1.touches slot (fun t => { t with used := true, orientation := v }) }
      else if e.code = 0x3c then { m1 with touches := updateTouch m1.touches slot (fun t => { t with used := true, toolX := v }) }
      else if e.code = 0x3d then { m1 with touches := updateTouch m1.touches slot (fun t => { t with used := true, toolY := v }) }
      else if e.code = 0x37 then { m1 with touches := updateTouch m1.touches slot (fun t => { t with used := true, toolType := v }) }
      else m1
  | EvKind.misc => m
  | EvKind.sync => { m with state := MTState.ReadReady }
  | EvKind.other => m

/-- The twelve per-contact axis event codes, in the order of `axisFields`:
position X/Y, pressure, distance, touch major/minor, width major/minor,
orientation, tool X/Y, tool type. -/
def axisCodes : List Nat :=
  [0x35, 0x36, 0x3a, 0x3b, 0x30, 0x31, 0x32, 0x33, 0x34, 0x3c, 0x3d, 0x37]

/-- The twelve per-contact axis fields of a slot, in the order of
`axisCodes`. -/
def axisFields (t : TouchData) : List Int :=
  [t.positionX, t.positionY, t.pressure, t.distance, t.touchMajor,
   t.touchMinor, t.widthMajor, t.widthMinor, t.orientation, t.toolX,
   t.toolY, t.toolType]

example :
    ((freshMT.process ⟨EvKind.absolute, 0x2f, 0⟩).process
      ⟨EvKind.absolute, 0x39, 5⟩).touches.getD 0 td0 =
    { td0 with used := true, trackingId := 5 } := by decide

/-! ## HID report-descriptor scan (`src/heatmap/discovery.rs`) -/

/-- The byte at offset `j` of the descriptor (`u8`, hence `% 256`;
intended inputs are byte lists). -/
def byteAt (desc : List Nat) (j : Nat) : Nat := desc.getD j 0 % 256

/-- Decoding of a Report Count data field
(`src/heatmap/discovery.rs` lines 146-151): little-endian over 1, 2 or 4
data bytes, `0` for any other size. -/
def countFromData (size : Nat) (data : List Nat) : Nat :=
  if size = 1 then data.getD 0 0
  else if size = 2 then data.getD 0 0 + 256 * data.getD 1 0
  else if size = 4 then
    data.getD 0 0 + 256 * data.getD 1 0 + 65536 * data.getD 2 0 +
      16777216 * data.getD 3 0
  else 0

/-- The loop body of `parse_report_descriptor_for_burst_len`
(`src/heatmap/discovery.rs` lines 103-169), with the loop index `i`, the
current Report-ID context and the pending Report Count as parameters and an
explicit fuel (the loop advances `i` by at least one byte per iteration, so
`desc.length` iterations always suffice).  A long item (prefix `0xFE`) is
skipped over `3 + data_size` bytes; a short item's size bits `0-3` map
`3 ↦ 4` data bytes; tag `0x84` sets the Report-ID context, tag `0x94` the
pending count, and tag `0xB0` (Feature) returns the pending count when the
context equals the burst report ID `0x41`. -/
def parseRDAux (desc : List Nat) : Nat → Nat → Option Nat → Option Nat → Option Nat
  | 0, _, _, _ => none
  | fuel + 1, i, curId, curCount =>
      if i < desc.length then
        let pfx := byteAt desc i
        if pfx = 0xFE then
          if desc.length ≤ i + 2 then none
          else parseRDAux desc fuel (i + 3 + byteAt desc (i + 1)) curId curCount
        else
          let size := if pfx % 4 = 3 then 4 else pfx % 4
          if desc.length < i + 1 + size then none
          else
            let tag := pfx - pfx % 4
            let data := (desc.drop (i + 1)).take size
            if tag = 0x84 then
              parseRDAux desc fuel (i + 1 + size)
                (match data.head? with
                 | some b => some b
                 | none => curId) curCount
            else if tag = 0x94 then
              parseRDAux desc fuel (i + 1 + size) curId
                (some (countFromData size data))
            else if tag = 0xB0 then
              if curId = some 0x41 then
                match curCount with
                | some c => some c
                | none => parseRDAux desc fuel (i + 1 + size) curId curCount
              else parseRDAux desc fuel (i + 1 + size) curId curCount
            else parseRDAux desc fuel (i + 1 + size) curId curCount
      else none

/-- `parse_report_descriptor_for_burst_len(desc)`. -/
def parseRD (desc : List Nat) : Option Nat :=
  parseRDAux desc desc.length 0 none none

/-- A HID item at the level of the specification's description: a short
item with its tag (prefix with the low two size bits cleared) and data
bytes, or a long item with its long tag and data bytes. -/
inductive HidItem where
  | short (tag : Nat) (data : List Nat)
  | long (ltag : Nat) (data : List Nat)
deriving DecidableEq

/-- Size bits encoding a short item's data length (`4 ↦ 3`). -/
def sizeCode : Nat → Nat
  | 4 => 3
  | n => n

/-- The wire bytes of one item: a short item is its prefix byte followed by
the data; a long item is `0xFE`, the data size, the long tag, then the
data. -/
def itemBytes : HidItem → List Nat
  | HidItem.short tag data => (tag + sizeCode data.length) :: data
  | HidItem.long ltag data => 0xFE :: data.length :: ltag :: data

/-- The wire bytes of an item sequence. -/
def itemsBytes (items : List HidItem) : List Nat :=
  items.foldr (fun it acc => itemBytes it ++ acc) []

/-- Well-formedness of an item: tags and data are bytes, a short item's
data length is one of the encodable sizes 0, 1, 2, 4, and a short item's
prefix byte is not `0xFE` (tag `0xFC` with size bits `2`), which would make
it indistinguishable from a long item on the wire. -/
def wfItem : HidItem → Prop
  | HidItem.short tag data =>
      tag < 256 ∧ tag % 4 = 0 ∧
      (data.length = 0 ∨ data.length = 1 ∨ data.length = 2 ∨ data.length = 4) ∧
      ¬(tag = 0xFC ∧ data.length = 2) ∧ ∀ b ∈ data, b < 256
  | HidItem.long ltag data =>
      ltag < 256 ∧ data.length < 256 ∧ ∀ b ∈ data, b < 256

instance (it : HidItem) : Decidable (wfItem it) := by
  cases it <;> simp only [wfItem] <;> infer_instance

/-- The specification's item-level description of the scan: walk the items
in order; a long item is skipped; tag `0x84` (Report ID) sets the context
from the first data byte (if any); tag `0x94` (Report Count) sets the
pending count from the little-endian data; tag `0xB0` (Feature) returns the
pending count exactly when the context is the burst ID `0x41` and a count
is pending; reaching the end without such a Feature item returns nothing. -/
def specScan : List HidItem → Option Nat → Option Nat → Option Nat
  | [], _, _ => none
  | HidItem.long _ _ :: rest, curId, curCount => specScan rest curId curCount
  | HidItem.short tag data :: rest, curId, curCount =>
      if tag = 0x84 then
        specScan rest
          (match data.head? with
           | some b => some b
           | none => curId) curCount
      else if tag = 0x94 then
        specScan rest curId (some (countFromData data.length data))
      else if tag = 0xB0 then
        if curId = some 0x41 then
          match curCount with
          | some c => some c
          | none => specScan rest curId curCount
        else specScan rest curId curCount
      else specScan rest curId curCount

example :
    parseRD (itemsBytes [HidItem.short 0x84 [0x41], HidItem.long 7 [1, 2],
      HidItem.short 0x94 [0x24, 0x01], HidItem.short 0xB0 []]) =
    some 292 := by decide

example :
    specScan [HidItem.short 0x84 [0x41], HidItem.long 7 [1, 2],
      HidItem.short 0x94 [0x24, 0x01], HidItem.short 0xB0 []] none none =
    some 292 := by decide

/-! ## Helper lemmas -/

/-- The accumulator never overshoots: an `ok` outcome from an accumulator of
length at most `total` carries exactly `total` bytes. -/
theorem burstReadAux_ok_length (d : Dev) (total rl : Nat) :
    ∀ fuel k acc, acc.length ≤ total →
      ∀ k' t data,
        burstReadAux d total rl fuel k acc = (k', t, BurstOut.ok data) →
        data.length = total := by
  intro fuel
  induction fuel with
  | zero =>
      intro k acc hle k' t data h
      simp only [burstReadAux] at h
      split at h
      · simp at h
      · obtain ⟨-, -, h3⟩ := Prod.mk.injEq .. ▸ h
        cases h
        omega
  | succ fuel ih =>
      intro k acc hle k' t data h
      simp only [burstReadAux] at h
      split at h
      · rename_i hlt
        cases hr : (d k).getResp with
        | none => rw [hr] at h; simp at h
        | some np =>
            obtain ⟨n, p⟩ := np
            rw [hr] at h
            simp only at h
            split at h
            · simp at h
            · rename_i hpe
              have := ih (k + 1)
                (acc ++ p.take (min (total - acc.length) (min n (1 + rl) - 1)))
                (by simp; omega)
              cases hres : burstReadAux d total rl fuel (k + 1)
                (acc ++ p.take (min (total - acc.length) (min n (1 + rl) - 1))) with
              | mk k'' r =>
                obtain ⟨t'', out''⟩ := r
                rw [hres] at h
                cases h
                exact this k'' t'' data hres
      · cases h
        omega

/-- Every operation a burst read performs is a `get_feature` into the
`(1 + report_len)`-byte buffer. -/
theorem burstReadAux_trace (d : Dev) (total rl : Nat) :
    ∀ fuel k acc op, op ∈ (burstReadAux d total rl fuel k acc).2.1 →
      op = DevOp.getF (1 + rl) := by
  intro fuel
  induction fuel with
  | zero =>
      intro k acc op hop
      simp only [burstReadAux] at hop
      split at hop <;> simp at hop
  | succ fuel ih =>
      intro k acc op hop
      simp only [burstReadAux] at hop
      split at hop
      · cases hr : (d k).getResp with
        | none => rw [hr] at hop; simp at hop; exact hop
        | some np =>
            obtain ⟨n, p⟩ := np
            rw [hr] at hop
            simp only at hop
            split at hop
            · simp at hop; exact hop
            · simp only [List.mem_cons] at hop
              rcases hop with rfl | hop
              · rfl
              · exact ih _ _ _ hop
      · simp at hop

/-- With a well-behaved oracle (every chunk delivers at least one payload
byte), `fuel ≥` the number of missing bytes guarantees a successful burst
read of exactly `total` bytes. -/
theorem burstReadAux_ok_of_good (d : Dev) (total rl : Nat)
    (hg : ∀ k, goodResp rl (d k)) :
    ∀ fuel k acc, acc.length ≤ total → total - acc.length ≤ fuel →
      ∃ k' t data,
        burstReadAux d total rl fuel k acc = (k', t, BurstOut.ok data) ∧
        data.length = total := by
  intro fuel
  induction fuel with
  | zero =>
      intro k acc hle hfuel
      refine ⟨k, [], acc, ?_, by omega⟩
      simp only [burstReadAux]
      rw [if_neg (by omega)]
  | succ fuel ih =>
      intro k acc hle hfuel
      by_cases hlt : acc.length < total
      · obtain ⟨n, p, hresp, hn2, hnle, hplen⟩ := hg k
        have hpe : min n (1 + rl) = n := by omega
        have htk1 : 1 ≤ min (total - acc.length) (n - 1) := by omega
        have htkp : min (total - acc.length) (n - 1) ≤ p.length := by omega
        obtain ⟨k', t, data, hres, hlen⟩ :=
          ih (k + 1) (acc ++ p.take (min (total - acc.length) (n - 1)))
            (by simp [List.length_take]; omega)
            (by simp [List.length_take]; omega)
        refine ⟨k', DevOp.getF (1 + rl) :: t, data, ?_, hlen⟩
        simp only [burstReadAux, if_pos hlt, hresp]
        rw [hpe, if_neg (by omega), hres]
      · refine ⟨k, [], acc, ?_, by omega⟩
        simp only [burstReadAux]
        rw [if_neg hlt]

/-- An oracle whose every chunk reports exactly one populated byte (the
report-ID byte alone, zero payload bytes). -/
def stallDev : Dev := fun _ => ⟨true, some (1, List.replicate 8 0)⟩

/-- Against `stallDev` the burst loop makes no progress: every iteration
contributes `min (remaining) (1 - 1) = 0` bytes, so any amount of fuel is
exhausted with nothing accumulated. -/
theorem burstReadAux_stall (total rl : Nat) (h0 : 0 < total) :
    ∀ fuel k, (burstReadAux stallDev total rl fuel k []).2.2 =
      BurstOut.outOfFuel := by
  intro fuel
  induction fuel with
  | zero =>
      intro k
      simp only [burstReadAux]
      rw [if_pos (by simpa using h0)]
  | succ fuel ih =>
      intro k
      have h1 : (stallDev k).getResp = some (1, List.replicate 8 0) := rfl
      simp only [burstReadAux, h1]
      rw [if_pos (by simpa using h0)]
      simp only [List.length_nil, Nat.sub_zero, Nat.min_self]
      rw [if_neg (by omega)]
      simpa using ih (k + 1)

/-! ## Claim C1 -/

/-- C1: the claim states that `burst_read` defends against a zero-length
`get_feature` return with an explicit `returned_len == 0` check.  The code
has no such check: whenever a chunk reports 0 bytes populated while bytes
are still missing, the loop reaches `payload_end - 1` with
`payload_end = 0`, which underflows the `usize` subtraction (a panic in a
debug build; in release the wrapped value lets `take = remaining`, slicing
`buf[1..1+remaining]`, which panics or copies stale bytes).  This theorem
shows the unguarded underflow is reached from any burst state. -/
theorem burst_read_zero_length_return_underflows
    (d : Dev) (total rl fuel k : Nat) (acc : List Nat) (p : List Nat)
    (hlt : acc.length < total) (hfuel : 1 ≤ fuel)
    (hz : (d k).getResp = some (0, p)) :
    (burstReadAux d total rl fuel k acc).2.2 = BurstOut.panicUnderflow := by
  obtain ⟨fuel, rfl⟩ : ∃ f, fuel = f + 1 := ⟨fuel - 1, by omega⟩
  simp only [burstReadAux, hz]
  rw [if_pos hlt]
  simp

/-- Witness for C1's theorem: a concrete burst read (2 bytes wanted,
`report_len = 8`) whose first chunk reports 0 bytes reaches the underflow. -/
theorem burst_read_zero_length_return_underflows_witness :
    (burstReadAux (fun _ => ⟨true, some (0, List.replicate 8 0)⟩) 2 8 10 0
      []).2.2 = BurstOut.panicUnderflow :=
  burst_read_zero_length_return_underflows
    (fun _ => ⟨true, some (0, List.replicate 8 0)⟩) 2 8 10 0 [] _
    (by decide) (by decide) rfl

/-! ## Claim C4 -/

/-- C4 counterexample: the claim promises that `burst_read` accumulates
exactly `total_bytes` whenever every `get_feature` call reports a positive
number of populated bytes.  A chunk that reports exactly 1 byte (the report
ID alone) is positive yet contributes `min(remaining, 1-1) = 0` payload
bytes, so the loop never makes progress: with `total_bytes = 2`,
`report_len = 8` and 1000 iterations of fuel the read is still running. -/
theorem burst_read_positive_chunk_can_stall :
    (burstRead stallDev 2 8 1000 0).2.2 = BurstOut.outOfFuel :=
  burstReadAux_stall 2 8 (by decide) 1000 0

/-- C4 (amended): if every `get_feature` call reports at least 2 populated
bytes (report ID plus at least one payload byte) and at most `1+report_len`
bytes, then with fuel `≥ total_bytes` the burst read returns exactly
`total_bytes` payload bytes and never accumulates more; and each iteration
contributes exactly `min(remaining, returned_len - 1)` bytes taken from the
chunk's payload (the bytes after buffer offset 0, i.e. starting at buffer
offset 1). -/
theorem burst_read_accumulates_exactly_total
    (d : Dev) (total rl fuel k : Nat)
    (hg : ∀ j, goodResp rl (d j)) (hfuel : total ≤ fuel) :
    (∃ k' t data,
        burstRead d total rl fuel k = (k', t, BurstOut.ok data) ∧
        data.length = total) ∧
    (∀ k' t data,
        burstRead d total rl fuel k = (k', t, BurstOut.ok data) →
        data.length = total) ∧
    (∀ f j acc n p, acc.length < total →
        (d j).getResp = some (n, p) → 1 ≤ n → n ≤ 1 + rl →
        burstReadAux d total rl (f + 1) j acc =
          ((burstReadAux d total rl f (j + 1)
              (acc ++ p.take (min (total - acc.length) (n - 1)))).1,
           DevOp.getF (1 + rl) ::
             (burstReadAux d total rl f (j + 1)
               (acc ++ p.take (min (total - acc.length) (n - 1)))).2.1,
           (burstReadAux d total rl f (j + 1)
             (acc ++ p.take (min (total - acc.length) (n - 1)))).2.2)) := by
  refine ⟨?_, ?_, ?_⟩
  · exact burstReadAux_ok_of_good d total rl hg fuel k [] (by simp) (by simp; omega)
  · intro k' t data h
    exact burstReadAux_ok_length d total rl fuel k [] (by simp) k' t data h
  · intro f j acc n p hlt hresp hn1 hnle
    have hpe : min n (1 + rl) = n := by omega
    simp only [burstReadAux, hresp, if_pos hlt, hpe]
    rw [if_neg (by omega)]

/-- Witness for C4's amended theorem: a concrete oracle delivering 8-byte
payload chunks fills a 16-byte burst exactly. -/
theorem burst_read_accumulates_exactly_total_witness :
    (∃ k' t data,
        burstRead (fun _ => ⟨true, some (9, List.replicate 8 7)⟩) 16 8 16 0 =
          (k', t, BurstOut.ok data) ∧ data.length = 16) ∧
    (∀ k' t data,
        burstRead (fun _ => ⟨true, some (9, List.replicate 8 7)⟩) 16 8 16 0 =
          (k', t, BurstOut.ok data) → data.length = 16) ∧
    (∀ f j acc n p, acc.length < 16 →
        ((fun _ => ⟨true, some (9, List.replicate 8 7)⟩ : Dev) j).getResp =
          some (n, p) → 1 ≤ n → n ≤ 1 + 8 →
        burstReadAux (fun _ => ⟨true, some (9, List.replicate 8 7)⟩) 16 8
            (f + 1) j acc =
          ((burstReadAux (fun _ => ⟨true, some (9, List.replicate 8 7)⟩) 16 8
              f (j + 1) (acc ++ p.take (min (16 - acc.length) (n - 1)))).1,
           DevOp.getF (1 + 8) ::
             (burstReadAux (fun _ => ⟨true, some (9, List.replicate 8 7)⟩) 16
               8 f (j + 1)
               (acc ++ p.take (min (16 - acc.length) (n - 1)))).2.1,
           (burstReadAux (fun _ => ⟨true, some (9, List.replicate 8 7)⟩) 16 8
             f (j + 1)
             (acc ++ p.take (min (16 - acc.length) (n - 1)))).2.2)) :=
  burst_read_accumulates_exactly_total
    (fun _ => ⟨true, some (9, List.replicate 8 7)⟩) 16 8 16 0
    (fun _ => ⟨9, List.replicate 8 7, rfl, by omega, by omega, by decide⟩)
    (by omega)

/-- Normal form of the Family A sequence when `set_feature` never fails:
the four programming writes happen, then the burst trace, and the deassert
write is attempted exactly when the burst read returned data; the outcome
mirrors the burst outcome. -/
theorem readFramePJP274_eq (d : Dev) (rows cols T B fuel : Nat)
    (hset : ∀ k, (d k).setOk = true) :
    readFramePJP274 d rows cols T B fuel =
      (DevOp.setF [REPORT_SINGLE, 0x0E, 6, (cols - 1) % 256] ::
       DevOp.setF [REPORT_SINGLE, 0x0F, 6, (rows - 1) % 256] ::
       DevOp.setF [REPORT_SINGLE, 0x09, 6, 0x05] ::
       DevOp.setF [REPORT_SINGLE, 0x0A, 6, 0x00] ::
       ((burstReadAux d T B fuel 4 []).2.1 ++
        (match (burstReadAux d T B fuel 4 []).2.2 with
         | BurstOut.ok _ => [DevOp.setF [REPORT_SINGLE, 0x0A, 6, 0x01]]
         | _ => [])),
       (match (burstReadAux d T B fuel 4 []).2.2 with
        | BurstOut.ok data => FrameOut.ok data
        | BurstOut.ioErr => FrameOut.ioErr
        | BurstOut.panicUnderflow => FrameOut.panicUnderflow
        | BurstOut.outOfFuel => FrameOut.outOfFuel)) := by
  simp only [readFramePJP274, writeReg, burstRead, hset, if_true]
  norm_num
  rcases hb : burstReadAux d T B fuel 4 [] with ⟨k5, t5, out⟩
  cases out <;> simp [hset]

/-! ## Claim C2 -/

/-- C2 counterexample: the claim, as stated, requires the deassert write
(`0x01` to bank 6 addr 0x0A) to happen exactly once *even if the burst read
fails*.  In the code every `?` propagates the error immediately, so a
failing burst read skips step 5: with a device whose `get_feature` always
fails (rows = cols = 2), the trace contains the four programming writes and
the failed burst attempt but zero deassert writes. -/
theorem family_a_no_deassert_on_burst_failure :
    (readFramePJP274 (fun _ => ⟨true, none⟩) 2 2 8 4 10).2 = FrameOut.ioErr ∧
    List.count (DevOp.setF [REPORT_SINGLE, 0x0A, 6, 0x01])
      (readFramePJP274 (fun _ => ⟨true, none⟩) 2 2 8 4 10).1 = 0 := by
  decide

/-- Exhaustive case analysis of the Family A sequence over an arbitrary
device: either one of the four programming writes fails (the trace stops at
the failing write), or they all succeed and the burst read runs, after
which the outcome and trace are determined by the burst outcome and the
deassert write's success. -/
theorem readFramePJP274_shape (d : Dev) (rows cols T B fuel : Nat) :
    ((d 0).setOk = false ∧
      readFramePJP274 d rows cols T B fuel =
        ([DevOp.setF [REPORT_SINGLE, 0x0E, 6, (cols - 1) % 256]],
         FrameOut.ioErr)) ∨
    ((d 0).setOk = true ∧ (d 1).setOk = false ∧
      readFramePJP274 d rows cols T B fuel =
        ([DevOp.setF [REPORT_SINGLE, 0x0E, 6, (cols - 1) % 256],
          DevOp.setF [REPORT_SINGLE, 0x0F, 6, (rows - 1) % 256]],
         FrameOut.ioErr)) ∨
    ((d 0).setOk = true ∧ (d 1).setOk = true ∧ (d 2).setOk = false ∧
      readFramePJP274 d rows cols T B fuel =
        ([DevOp.setF [REPORT_SINGLE, 0x0E, 6, (cols - 1) % 256],
          DevOp.setF [REPORT_SINGLE, 0x0F, 6, (rows - 1) % 256],
          DevOp.setF [REPORT_SINGLE, 0x09, 6, 0x05]],
         FrameOut.ioErr)) ∨
    ((d 0).setOk = true ∧ (d 1).setOk = true ∧ (d 2).setOk = true ∧
      (d 3).setOk = false ∧
      readFramePJP274 d rows cols T B fuel =
        ([DevOp.setF [REPORT_SINGLE, 0x0E, 6, (cols - 1) % 256],
          DevOp.setF [REPORT_SINGLE, 0x0F, 6, (rows - 1) % 256],
          DevOp.setF [REPORT_SINGLE, 0x09, 6, 0x05],
          DevOp.setF [REPORT_SINGLE, 0x0A, 6, 0x00]],
         FrameOut.ioErr)) ∨
    ((d 0).setOk = true ∧ (d 1).setOk = true ∧ (d 2).setOk = true ∧
      (d 3).setOk = true ∧
      ∃ k5 gets bout, burstReadAux d T B fuel 4 [] = (k5, gets, bout) ∧
        ((bout = BurstOut.ioErr ∧
           readFramePJP274 d rows cols T B fuel =
             ([DevOp.setF [REPORT_SINGLE, 0x0E, 6, (cols - 1) % 256],
               DevOp.setF [REPORT_SINGLE, 0x0F, 6, (rows - 1) % 256],
               DevOp.setF [REPORT_SINGLE, 0x09, 6, 0x05],
               DevOp.setF [REPORT_SINGLE, 0x0A, 6, 0x00]] ++ gets,
              FrameOut.ioErr)) ∨
         (bout = BurstOut.panicUnderflow ∧
           readFramePJP274 d rows cols T B fuel =
             ([DevOp.setF [REPORT_SINGLE, 0x0E, 6, (cols - 1) % 256],
               DevOp.setF [REPORT_SINGLE, 0x0F, 6, (rows - 1) % 256],
               DevOp.setF [REPORT_SINGLE, 0x09, 6, 0x05],
               DevOp.setF [REPORT_SINGLE, 0x0A, 6, 0x00]] ++ gets,
              FrameOut.panicUnderflow)) ∨
         (bout = BurstOut.outOfFuel ∧
           readFramePJP274 d rows cols T B fuel =
             ([DevOp.setF [REPORT_SINGLE, 0x0E, 6, (cols - 1) % 256],
               DevOp.setF [REPORT_SINGLE, 0x0F, 6, (rows - 1) % 256],
               DevOp.setF [REPORT_SINGLE, 0x09, 6, 0x05],
               DevOp.setF [REPORT_SINGLE, 0x0A, 6, 0x00]] ++ gets,
              FrameOut.outOfFuel)) ∨
         (∃ data, bout = BurstOut.ok data ∧
            (((d k5).setOk = false ∧
               readFramePJP274 d rows cols T B fuel =
                 ([DevOp.setF [REPORT_SINGLE, 0x0E, 6, (cols - 1) % 256],
                   DevOp.setF [REPORT_SINGLE, 0x0F, 6, (rows - 1) % 256],
                   DevOp.setF [REPORT_SINGLE, 0x09, 6, 0x05],
                   DevOp.setF [REPORT_SINGLE, 0x0A, 6, 0x00]] ++ gets ++
                    [DevOp.setF [REPORT_SINGLE, 0x0A, 6, 0x01]],
                  FrameOut.ioErr)) ∨
             ((d k5).setOk = true ∧
               readFramePJP274 d rows cols T B fuel =
                 ([DevOp.setF [REPORT_SINGLE, 0x0E, 6, (cols - 1) % 256],
                   DevOp.setF [REPORT_SINGLE, 0x0F, 6, (rows - 1) % 256],
                   DevOp.setF [REPORT_SINGLE, 0x09, 6, 0x05],
                   DevOp.setF [REPORT_SINGLE, 0x0A, 6, 0x00]] ++ gets ++
                    [DevOp.setF [REPORT_SINGLE, 0x0A, 6, 0x01]],
                  FrameOut.ok data)))))) := by
  cases h0 : (d 0).setOk with
  | false =>
      left
      exact ⟨rfl, by simp [readFramePJP274, writeReg, h0]⟩
  | true =>
  right
  cases h1 : (d 1).setOk with
  | false =>
      left
      exact ⟨rfl, rfl, by simp [readFramePJP274, writeReg, h0, h1]⟩
  | true =>
  right
  cases h2 : (d 2).setOk with
  | false =>
      left
      exact ⟨rfl, rfl, rfl, by simp [readFramePJP274, writeReg, h0, h1, h2]⟩
  | true =>
  right
  cases h3 : (d 3).setOk with
  | false =>
      left
      exact ⟨rfl, rfl, rfl, rfl,
        by simp [readFramePJP274, writeReg, h0, h1, h2, h3]⟩
  | true =>
  right
  refine ⟨rfl, rfl, rfl, rfl, ?_⟩
  rcases hb : burstReadAux d T B fuel 4 [] with ⟨k5, gets, bout⟩
  refine ⟨k5, gets, bout, rfl, ?_⟩
  cases bout with
  | ioErr =>
      exact Or.inl ⟨rfl,
        by simp [readFramePJP274, writeReg, burstRead, h0, h1, h2, h3, hb]⟩
  | panicUnderflow =>
      exact Or.inr (Or.inl ⟨rfl,
        by simp [readFramePJP274, writeReg, burstRead, h0, h1, h2, h3, hb]⟩)
  | outOfFuel =>
      exact Or.inr (Or.inr (Or.inl ⟨rfl,
        by simp [readFramePJP274, writeReg, burstRead, h0, h1, h2, h3, hb]⟩))
  | ok data =>
      refine Or.inr (Or.inr (Or.inr ⟨data, rfl, ?_⟩))
      cases h5 : (d k5).setOk with
      | false =>
          exact Or.inl ⟨rfl, by
            simp [readFramePJP274, writeReg, burstRead, h0, h1, h2, h3, hb,
              h5]⟩
      | true =>
          exact Or.inr ⟨rfl, by
            simp [readFramePJP274, writeReg, burstRead, h0, h1, h2, h3, hb,
              h5]⟩

/-- C2 (amended): for `rows * cols > 0` with `rows, cols ≤ 256`, the Family
A sequence attempts, in order, only the prescribed operations — the writes
`cols-1 → (6, 0x0E)`, `rows-1 → (6, 0x0F)`, `0x05 → (6, 0x09)`,
`0x00 → (6, 0x0A)`, burst `get_feature` chunks, and the deassert write
`0x01 → (6, 0x0A)`.  On success the deassert write happens exactly once.
An I/O failure at any step propagates immediately: the trace is exactly the
prescribed prefix ending at the failing operation, with no rollback writes;
in particular a failure at or before the burst read (including a failed
burst) performs the deassert write zero times, and a deassert write appears
in a failing trace only when it is itself the failing operation (attempted
exactly once, after a successful burst).  With a well-behaved oracle and
enough fuel the sequence succeeds with `rows * cols * 2` bytes. -/
theorem family_a_frame_sequence
    (d : Dev) (rows cols burstLen fuel : Nat)
    (hrc : 0 < rows * cols) (hrows : rows ≤ 256) (hcols : cols ≤ 256) :
    (∀ t data,
        readFramePJP274 d rows cols (rows * cols * 2) burstLen fuel =
          (t, FrameOut.ok data) →
        data.length = rows * cols * 2 ∧
        (∃ gets, (∀ op ∈ gets, op = DevOp.getF (1 + burstLen)) ∧
          t = DevOp.setF [REPORT_SINGLE, 0x0E, 6, cols - 1] ::
              DevOp.setF [REPORT_SINGLE, 0x0F, 6, rows - 1] ::
              DevOp.setF [REPORT_SINGLE, 0x09, 6, 0x05] ::
              DevOp.setF [REPORT_SINGLE, 0x0A, 6, 0x00] ::
              (gets ++ [DevOp.setF [REPORT_SINGLE, 0x0A, 6, 0x01]])) ∧
        List.count (DevOp.setF [REPORT_SINGLE, 0x0A, 6, 0x01]) t = 1) ∧
    (∀ t out,
        readFramePJP274 d rows cols (rows * cols * 2) burstLen fuel =
          (t, out) →
        (∀ data, out ≠ FrameOut.ok data) →
        ∃ gets, (∀ op ∈ gets, op = DevOp.getF (1 + burstLen)) ∧
          (((t = [DevOp.setF [REPORT_SINGLE, 0x0E, 6, cols - 1]] ∨
             t = [DevOp.setF [REPORT_SINGLE, 0x0E, 6, cols - 1],
                  DevOp.setF [REPORT_SINGLE, 0x0F, 6, rows - 1]] ∨
             t = [DevOp.setF [REPORT_SINGLE, 0x0E, 6, cols - 1],
                  DevOp.setF [REPORT_SINGLE, 0x0F, 6, rows - 1],
                  DevOp.setF [REPORT_SINGLE, 0x09, 6, 0x05]] ∨
             t = [DevOp.setF [REPORT_SINGLE, 0x0E, 6, cols - 1],
                  DevOp.setF [REPORT_SINGLE, 0x0F, 6, rows - 1],
                  DevOp.setF [REPORT_SINGLE, 0x09, 6, 0x05],
                  DevOp.setF [REPORT_SINGLE, 0x0A, 6, 0x00]] ∨
             t = [DevOp.setF [REPORT_SINGLE, 0x0E, 6, cols - 1],
                  DevOp.setF [REPORT_SINGLE, 0x0F, 6, rows - 1],
                  DevOp.setF [REPORT_SINGLE, 0x09, 6, 0x05],
                  DevOp.setF [REPORT_SINGLE, 0x0A, 6, 0x00]] ++ gets) ∧
            List.count (DevOp.setF [REPORT_SINGLE, 0x0A, 6, 0x01]) t = 0) ∨
           (t = [DevOp.setF [REPORT_SINGLE, 0x0E, 6, cols - 1],
                 DevOp.setF [REPORT_SINGLE, 0x0F, 6, rows - 1],
                 DevOp.setF [REPORT_SINGLE, 0x09, 6, 0x05],
                 DevOp.setF [REPORT_SINGLE, 0x0A, 6, 0x00]] ++ gets ++
                [DevOp.setF [REPORT_SINGLE, 0x0A, 6, 0x01]] ∧
            out = FrameOut.ioErr ∧
            List.count (DevOp.setF [REPORT_SINGLE, 0x0A, 6, 0x01]) t = 1))) ∧
    ((∀ k, (d k).setOk = true) → (∀ j, goodResp burstLen (d j)) →
        rows * cols * 2 ≤ fuel →
        ∃ t data,
          readFramePJP274 d rows cols (rows * cols * 2) burstLen fuel =
            (t, FrameOut.ok data)) := by
  have hcm : (cols - 1) % 256 = cols - 1 := Nat.mod_eq_of_lt (by omega)
  have hrm : (rows - 1) % 256 = rows - 1 := Nat.mod_eq_of_lt (by omega)
  have hshape := readFramePJP274_shape d rows cols (rows * cols * 2)
    burstLen fuel
  rw [hcm, hrm] at hshape
  refine ⟨?_, ?_, ?_⟩
  · intro t data h
    rcases hshape with ⟨-, hres⟩ | ⟨-, -, hres⟩ | ⟨-, -, -, hres⟩ |
      ⟨-, -, -, -, hres⟩ | ⟨-, -, -, -, k5, gets, bout, hb, hcase⟩
    · rw [hres] at h; simp at h
    · rw [hres] at h; simp at h
    · rw [hres] at h; simp at h
    · rw [hres] at h; simp at h
    · rcases hcase with ⟨hbo, hres⟩ | ⟨hbo, hres⟩ | ⟨hbo, hres⟩ |
        ⟨data0, hbo, ⟨-, hres⟩ | ⟨-, hres⟩⟩
      · rw [hres] at h; simp at h
      · rw [hres] at h; simp at h
      · rw [hres] at h; simp at h
      · rw [hres] at h; simp at h
      · subst hbo
        rw [hres] at h
        simp only [Prod.mk.injEq, FrameOut.ok.injEq] at h
        obtain ⟨ht, rfl⟩ := h
        subst ht
        have hlen := burstReadAux_ok_length d (rows * cols * 2) burstLen
          fuel 4 [] (by simp) k5 gets data0 hb
        have htr : ∀ op ∈ gets, op = DevOp.getF (1 + burstLen) := by
          intro op hop
          have := burstReadAux_trace d (rows * cols * 2) burstLen fuel 4 [] op
          rw [hb] at this
          exact this hop
        have hnot : DevOp.setF [REPORT_SINGLE, 0x0A, 6, 0x01] ∉ gets := by
          intro hmem
          have := htr _ hmem
          simp [REPORT_SINGLE] at this
        refine ⟨hlen, ⟨gets, htr, rfl⟩, ?_⟩
        simp [List.count_cons, List.count_append,
          List.count_eq_zero.mpr hnot]
  · intro t out h hne
    rcases hshape with ⟨-, hres⟩ | ⟨-, -, hres⟩ | ⟨-, -, -, hres⟩ |
      ⟨-, -, -, -, hres⟩ | ⟨-, -, -, -, k5, gets, bout, hb, hcase⟩
    · rw [hres] at h
      simp only [Prod.mk.injEq] at h
      obtain ⟨rfl, -⟩ := h
      exact ⟨[], by simp, Or.inl ⟨Or.inl rfl, by simp⟩⟩
    · rw [hres] at h
      simp only [Prod.mk.injEq] at h
      obtain ⟨rfl, -⟩ := h
      exact ⟨[], by simp, Or.inl ⟨Or.inr (Or.inl rfl), by simp⟩⟩
    · rw [hres] at h
      simp only [Prod.mk.injEq] at h
      obtain ⟨rfl, -⟩ := h
      exact ⟨[], by simp, Or.inl ⟨Or.inr (Or.inr (Or.inl rfl)), by simp⟩⟩
    · rw [hres] at h
      simp only [Prod.mk.injEq] at h
      obtain ⟨rfl, -⟩ := h
      exact ⟨[], by simp,
        Or.inl ⟨Or.inr (Or.inr (Or.inr (Or.inl rfl))), by simp⟩⟩
    · have htr : ∀ op ∈ gets, op = DevOp.getF (1 + burstLen) := by
        intro op hop
        have := burstReadAux_trace d (rows * cols * 2) burstLen fuel 4 [] op
        rw [hb] at this
        exact this hop
      have hnot : DevOp.setF [REPORT_SINGLE, 0x0A, 6, 0x01] ∉ gets := by
        intro hmem
        have := htr _ hmem
        simp [REPORT_SINGLE] at this
      have hc0 : List.count (DevOp.setF [REPORT_SINGLE, 0x0A, 6, 0x01]) gets = 0 :=
        List.count_eq_zero.mpr hnot
      rcases hcase with ⟨hbo, hres⟩ | ⟨hbo, hres⟩ | ⟨hbo, hres⟩ |
        ⟨data0, hbo, ⟨-, hres⟩ | ⟨-, hres⟩⟩
      · rw [hres] at h
        simp only [Prod.mk.injEq] at h
        obtain ⟨rfl, -⟩ := h
        refine ⟨gets, htr,
          Or.inl ⟨Or.inr (Or.inr (Or.inr (Or.inr rfl))), ?_⟩⟩
        simp [List.count_cons, List.count_append, hc0]
      · rw [hres] at h
        simp only [Prod.mk.injEq] at h
        obtain ⟨rfl, -⟩ := h
        refine ⟨gets, htr,
          Or.inl ⟨Or.inr (Or.inr (Or.inr (Or.inr rfl))), ?_⟩⟩
        simp [List.count_cons, List.count_append, hc0]
      · rw [hres] at h
        simp only [Prod.mk.injEq] at h
        obtain ⟨rfl, -⟩ := h
        refine ⟨gets, htr,
          Or.inl ⟨Or.inr (Or.inr (Or.inr (Or.inr rfl))), ?_⟩⟩
        simp [List.count_cons, List.count_append, hc0]
      · rw [hres] at h
        simp only [Prod.mk.injEq] at h
        obtain ⟨rfl, rfl⟩ := h
        refine ⟨gets, htr, Or.inr ⟨rfl, rfl, ?_⟩⟩
        simp [List.count_cons, List.count_append, hc0]
      · rw [hres] at h
        simp only [Prod.mk.injEq] at h
        exact absurd h.2.symm (hne data0)
  · intro hset hg hfuel
    have heq := readFramePJP274_eq d rows cols (rows * cols * 2) burstLen
      fuel hset
    obtain ⟨k', t', data, hok, -⟩ :=
      burstReadAux_ok_of_good d (rows * cols * 2) burstLen hg fuel 4 []
        (by simp) (by simpa using hfuel)
    rw [hok] at heq
    rw [heq]
    exact ⟨_, data, rfl⟩

/-- Witness for C2's theorem: a concrete well-behaved device (chunks of 4
payload bytes) lets a 2×3 Family A frame read succeed. -/
theorem family_a_frame_sequence_witness :
    ∃ t data,
      readFramePJP274 (fun _ => ⟨true, some (5, [7, 7, 7, 7])⟩) 2 3
        (2 * 3 * 2) 4 12 = (t, FrameOut.ok data) :=
  (family_a_frame_sequence (fun _ => ⟨true, some (5, [7, 7, 7, 7])⟩) 2 3 4 12
      (by decide) (by decide) (by decide)).2.2 (fun _ => rfl)
    (fun _ => ⟨5, [7, 7, 7, 7], rfl, by omega, by omega, rfl⟩) (by omega)

/-! ## Claim C3 -/

/-- C3: `identify_chip` performs a single-register read of bank 0 address
0x78 (low byte) and 0x79 (high byte), combines them little-endian as
`lo | (hi << 8)`, and maps the five documented part IDs to their variants
(0x0274 → PJP274, 0x0343 → PJP343, 0x0255 → PJP255, 0x0215 → PJP215,
0x0239 → PLP239); every other part ID yields `UnsupportedChip`, and no
other part ID succeeds. -/
theorem identify_chip_reads_and_maps
    (d : Dev) (k : Nat) (n1 n2 : Nat) (p1 p2 : List Nat)
    (hs0 : (d k).setOk = true)
    (hg1 : (d (k + 1)).getResp = some (n1, p1))
    (hs2 : (d (k + 2)).setOk = true)
    (hg2 : (d (k + 3)).getResp = some (n2, p2)) :
    identifyChip d k =
      (k + 4,
       [DevOp.setF [REPORT_SINGLE, 0x78, READ_FLAG, 0], DevOp.getF 4,
        DevOp.setF [REPORT_SINGLE, 0x79, READ_FLAG, 0], DevOp.getF 4],
       chipOfPartId
         (Nat.lor (p1.getD 2 0 % 256)
           (Nat.shiftLeft (p2.getD 2 0 % 256) 8))) ∧
    chipOfPartId 0x0274 = IdResult.ok ChipVariant.PJP274 ∧
    chipOfPartId 0x0343 = IdResult.ok ChipVariant.PJP343 ∧
    chipOfPartId 0x0255 = IdResult.ok ChipVariant.PJP255 ∧
    chipOfPartId 0x0215 = IdResult.ok ChipVariant.PJP215 ∧
    chipOfPartId 0x0239 = IdResult.ok ChipVariant.PLP239 ∧
    (∀ p c, chipOfPartId p = IdResult.ok c →
       p = 0x0274 ∨ p = 0x0343 ∨ p = 0x0255 ∨ p = 0x0215 ∨ p = 0x0239) ∧
    (∀ p, p ≠ 0x0274 → p ≠ 0x0343 → p ≠ 0x0255 → p ≠ 0x0215 → p ≠ 0x0239 →
       chipOfPartId p = IdResult.unsupported p) := by
  refine ⟨?_, by decide, by decide, by decide, by decide, by decide, ?_, ?_⟩
  · have h23 : k + 2 + 1 = k + 3 := rfl
    simp only [identifyChip, readReg, hs0, hs2, hg1, h23, hg2, if_true,
      Nat.zero_or]
    rfl
  · intro p c h
    by_contra hcon
    push_neg at hcon
    obtain ⟨h1, h2, h3, h4, h5⟩ := hcon
    simp [chipOfPartId, h1, h2, h3, h4, h5] at h
  · intro p h1 h2 h3 h4 h5
    simp [chipOfPartId, h1, h2, h3, h4, h5]

/-- Witness for C3's theorem: a device reporting bytes 0x74 / 0x02 at
`buf[3]` of the two reads maps to `PJP274`. -/
theorem identify_chip_reads_and_maps_witness :
    identifyChip
      (fun j => if j = 1 then ⟨true, some (4, [0, 0, 0x74])⟩
        else if j = 3 then ⟨true, some (4, [0, 0, 0x02])⟩
        else ⟨true, none⟩) 0 =
      (4,
       [DevOp.setF [REPORT_SINGLE, 0x78, READ_FLAG, 0], DevOp.getF 4,
        DevOp.setF [REPORT_SINGLE, 0x79, READ_FLAG, 0], DevOp.getF 4],
       chipOfPartId
         (Nat.lor (([0, 0, 0x74] : List Nat).getD 2 0 % 256)
           (Nat.shiftLeft (([0, 0, 0x02] : List Nat).getD 2 0 % 256) 8))) ∧
    chipOfPartId
        (Nat.lor (([0, 0, 0x74] : List Nat).getD 2 0 % 256)
          (Nat.shiftLeft (([0, 0, 0x02] : List Nat).getD 2 0 % 256) 8)) =
      IdResult.ok ChipVariant.PJP274 :=
  ⟨(identify_chip_reads_and_maps
      (fun j => if j = 1 then ⟨true, some (4, [0, 0, 0x74])⟩
        else if j = 3 then ⟨true, some (4, [0, 0, 0x02])⟩
        else ⟨true, none⟩) 0 4 4 [0, 0, 0x74] [0, 0, 0x02]
      rfl rfl rfl rfl).1, by decide⟩

/-! ## Claim C6 -/

/-- C6: the baseline EMA equals the frame mean exactly on the first frame,
thereafter follows `s' = s + α (m - s)` with `α = 0.005`; hence for a
constant input mean `m` from a fresh detector the smoothed mean equals `m`
exactly from the first call on, and in general each step moves the
smoothed mean no further from `m` (monotone convergence). -/
theorem ema_constant_input (m : ℚ) :
    emaSeq m 0 = m ∧
    (∀ n, emaSeq m (n + 1) = emaSeq m n + EMA_ALPHA * (m - emaSeq m n)) ∧
    (∀ n, emaSeq m n = m) ∧
    (∀ prev, |emaStep (some prev) m - m| ≤ |prev - m|) := by
  have hz : ∀ n, emaSeq m n = m := by
    intro n
    induction n with
    | zero => rfl
    | succ n ih => simp [emaSeq, emaStep, ih]
  refine ⟨hz 0, fun n => rfl, hz, ?_⟩
  intro prev
  have h : emaStep (some prev) m - m = (199 / 200) * (prev - m) := by
    simp only [emaStep, EMA_ALPHA]
    ring
  rw [h, abs_mul]
  have h199 : |(199 / 200 : ℚ)| = 199 / 200 := by norm_num
  rw [h199]
  nlinarith [abs_nonneg (prev - m)]

/-! ## Claim C5 -/

/-- C5: each frame pushes the smoothed mean into the history buffer capped
at 500 entries (dropping the oldest on overflow); once the buffer holds at
least two entries the drift rate is `(smoothed_mean - oldest) / length`,
otherwise 0; and `calibrating` is set exactly when the buffer is full (500
entries) and `|drift_rate| > 0.02`. -/
theorem drift_detector_step (s : CalibState) (mean : ℚ)
    (hinv : s.history.length ≤ DRIFT_WINDOW) :
    (calibStep s mean).1.history =
      (if s.history.length = DRIFT_WINDOW then s.history.drop 1
       else s.history) ++ [(calibStep s mean).2.smoothedMean] ∧
    (calibStep s mean).1.history.length =
      min (s.history.length + 1) DRIFT_WINDOW ∧
    (2 ≤ (calibStep s mean).1.history.length →
      (calibStep s mean).2.driftRate =
        ((calibStep s mean).2.smoothedMean -
            (calibStep s mean).1.history.headD 0) /
          ((calibStep s mean).1.history.length : ℚ)) ∧
    ((calibStep s mean).1.history.length < 2 →
      (calibStep s mean).2.driftRate = 0) ∧
    ((calibStep s mean).2.calibrating = true ↔
      ((calibStep s mean).1.history.length = DRIFT_WINDOW ∧
        DRIFT_THRESHOLD < |(calibStep s mean).2.driftRate|)) := by
  have hcap : (if DRIFT_WINDOW ≤ s.history.length then s.history.drop 1
      else s.history) =
      (if s.history.length = DRIFT_WINDOW then s.history.drop 1
       else s.history) := by
    by_cases h : s.history.length = DRIFT_WINDOW
    · simp [h]
    · refine (if_neg ?_).trans (if_neg h).symm
      have hinv' : s.history.length ≤ 500 := hinv
      have h' : s.history.length ≠ 500 := h
      show ¬ (500 ≤ s.history.length)
      omega
  have hlen : ((if s.history.length = DRIFT_WINDOW then s.history.drop 1
      else s.history) ++
        [emaStep s.ema mean]).length =
      min (s.history.length + 1) DRIFT_WINDOW := by
    by_cases h : s.history.length = DRIFT_WINDOW
    · simp [h, DRIFT_WINDOW]
    · rw [if_neg h]
      simp only [List.length_append, List.length_cons, List.length_nil]
      simp only [DRIFT_WINDOW] at hinv h ⊢
      omega
  refine ⟨?_, ?_, ?_, ?_, ?_⟩
  · simp only [calibStep, hcap]
  · simp only [calibStep, hcap]
    exact hlen
  · intro h2
    simp only [calibStep, hcap] at h2 ⊢
    rw [if_pos h2]
  · intro h2
    simp only [calibStep, hcap] at h2 ⊢
    rw [if_neg (by omega)]
  · simp only [calibStep, hcap, Bool.and_eq_true, decide_eq_true_eq]
    constructor
    · rintro ⟨hge, hthr⟩
      refine ⟨?_, hthr⟩
      rw [hlen] at hge ⊢
      simp only [DRIFT_WINDOW] at hge hinv ⊢
      omega
    · rintro ⟨hfull, hthr⟩
      exact ⟨by rw [hfull], hthr⟩

/-- Witness for C5's theorem: the concrete detector state holding the
two-entry history `[1, 2]`. -/
theorem drift_detector_step_witness :
    (calibStep ⟨some 2, [1, 2], false⟩ 3).1.history =
      (if ([1, 2] : List ℚ).length = DRIFT_WINDOW then ([1, 2] : List ℚ).drop 1
       else [1, 2]) ++ [(calibStep ⟨some 2, [1, 2], false⟩ 3).2.smoothedMean] ∧
    (calibStep ⟨some 2, [1, 2], false⟩ 3).1.history.length =
      min (([1, 2] : List ℚ).length + 1) DRIFT_WINDOW ∧
    (2 ≤ (calibStep ⟨some 2, [1, 2], false⟩ 3).1.history.length →
      (calibStep ⟨some 2, [1, 2], false⟩ 3).2.driftRate =
        ((calibStep ⟨some 2, [1, 2], false⟩ 3).2.smoothedMean -
            (calibStep ⟨some 2, [1, 2], false⟩ 3).1.history.headD 0) /
          ((calibStep ⟨some 2, [1, 2], false⟩ 3).1.history.length : ℚ)) ∧
    ((calibStep ⟨some 2, [1, 2], false⟩ 3).1.history.length < 2 →
      (calibStep ⟨some 2, [1, 2], false⟩ 3).2.driftRate = 0) ∧
    ((calibStep ⟨some 2, [1, 2], false⟩ 3).2.calibrating = true ↔
      ((calibStep ⟨some 2, [1, 2], false⟩ 3).1.history.length = DRIFT_WINDOW ∧
        DRIFT_THRESHOLD <
          |(calibStep ⟨some 2, [1, 2], false⟩ 3).2.driftRate|)) :=
  drift_detector_step ⟨some 2, [1, 2], false⟩ 3 (by simp [DRIFT_WINDOW])

/-! ## Claim C7 -/

/-- The canned event sequence of the round-trip test, first frame: slot 0
select, tracking-id 5, position X 100, position Y 200, sync. -/
def mtSeq1 : MTStateMachine :=
  [(⟨EvKind.absolute, 0x2f, 0⟩ : InputEvent), ⟨EvKind.absolute, 0x39, 5⟩,
   ⟨EvKind.absolute, 0x35, 100⟩, ⟨EvKind.absolute, 0x36, 200⟩,
   ⟨EvKind.sync, 0, 0⟩].foldl MTStateMachine.process freshMT

/-- The same sequence continued with slot 0 select, tracking-id −1 (lift),
sync. -/
def mtSeq2 : MTStateMachine :=
  [(⟨EvKind.absolute, 0x2f, 0⟩ : InputEvent), ⟨EvKind.absolute, 0x39, 5⟩,
   ⟨EvKind.absolute, 0x35, 100⟩, ⟨EvKind.absolute, 0x36, 200⟩,
   ⟨EvKind.sync, 0, 0⟩, ⟨EvKind.absolute, 0x2f, 0⟩,
   ⟨EvKind.absolute, 0x39, -1⟩, ⟨EvKind.sync, 0, 0⟩].foldl
    MTStateMachine.process freshMT

/-- C7: processing slot-select 0, tracking-id 5, position X 100, position Y
200, sync on a fresh machine leaves slot 0 with `used = true`,
`tracking_id = 5`, position (100, 200); the subsequent slot-select 0,
tracking-id −1, sync clears `used`. -/
theorem multitouch_round_trip :
    (mtSeq1.touches.getD 0 td0).used = true ∧
    (mtSeq1.touches.getD 0 td0).trackingId = 5 ∧
    (mtSeq1.touches.getD 0 td0).positionX = 100 ∧
    (mtSeq1.touches.getD 0 td0).positionY = 200 ∧
    (mtSeq2.touches.getD 0 td0).used = false := by
  decide

/-! ## List helper lemmas -/

/-- `getD` after `set` at the written (in-range) index. -/
theorem getD_set_self {α : Type} :
    ∀ (ts : List α) (i : Nat) (x dflt : α), i < ts.length →
      (ts.set i x).getD i dflt = x
  | [], i, x, dflt, h => absurd h (by simp)
  | a :: ts, 0, x, dflt, _ => rfl
  | a :: ts, i + 1, x, dflt, h =>
      getD_set_self ts i x dflt (by simpa using h)

/-- `getD` after `set` at a different index. -/
theorem getD_set_ne {α : Type} :
    ∀ (ts : List α) (i j : Nat) (x dflt : α), i ≠ j →
      (ts.set i x).getD j dflt = ts.getD j dflt
  | [], _, _, _, _, _ => rfl
  | a :: ts, 0, 0, x, dflt, h => absurd rfl h
  | a :: ts, 0, j + 1, x, dflt, _ => rfl
  | a :: ts, i + 1, 0, x, dflt, _ => rfl
  | a :: ts, i + 1, j + 1, x, dflt, h =>
      getD_set_ne ts i j x dflt (by omega)

/-- `preAbs` is the identity outside the never-assigned `NeedsReset`
state. -/
theorem preAbs_eq_self (m : MTStateMachine)
    (h : m.state ≠ MTState.NeedsReset) : m.preAbs = m := by
  unfold MTStateMachine.preAbs
  cases hs : m.state
  · rfl
  · rfl
  · exact absurd hs h

/-! ## Claim C8 -/

/-- C8: in any (reachable, i.e. non-`NeedsReset`) state, a per-contact axis
event with code `axisCodes[idx]` updates exactly the `idx`-th axis field of
the current slot and forces its `used` flag, regardless of any previous
tracking-id event; the decoder state, the slot pointer, the buttons, every
other slot, and every other field of the current slot (tap flags,
tracking id) are unchanged. -/
theorem axis_event_updates_exactly_current_slot
    (m : MTStateMachine) (idx : Nat) (v : Int)
    (hstate : m.state ≠ MTState.NeedsReset)
    (hlen : m.touches.length = MAX_TOUCH_POINTS)
    (hslot : m.slot.getD 0 < MAX_TOUCH_POINTS)
    (hidx : idx < 12) :
    (m.process ⟨EvKind.absolute, axisCodes.getD idx 0, v⟩).state = m.state ∧
    (m.process ⟨EvKind.absolute, axisCodes.getD idx 0, v⟩).slot = m.slot ∧
    (m.process ⟨EvKind.absolute, axisCodes.getD idx 0, v⟩).buttons =
      m.buttons ∧
    (m.process ⟨EvKind.absolute, axisCodes.getD idx 0, v⟩).touches.length =
      MAX_TOUCH_POINTS ∧
    (∀ j, j ≠ m.slot.getD 0 →
      (m.process ⟨EvKind.absolute, axisCodes.getD idx 0, v⟩).touches.getD j
          td0 =
        m.touches.getD j td0) ∧
    ((m.process ⟨EvKind.absolute, axisCodes.getD idx 0, v⟩).touches.getD
        (m.slot.getD 0) td0).used = true ∧
    ((m.process ⟨EvKind.absolute, axisCodes.getD idx 0, v⟩).touches.getD
        (m.slot.getD 0) td0).pressed =
      (m.touches.getD (m.slot.getD 0) td0).pressed ∧
    ((m.process ⟨EvKind.absolute, axisCodes.getD idx 0, v⟩).touches.getD
        (m.slot.getD 0) td0).pressedDouble =
      (m.touches.getD (m.slot.getD 0) td0).pressedDouble ∧
    ((m.process ⟨EvKind.absolute, axisCodes.getD idx 0, v⟩).touches.getD
        (m.slot.getD 0) td0).trackingId =
      (m.touches.getD (m.slot.getD 0) td0).trackingId ∧
    axisFields
        ((m.process ⟨EvKind.absolute, axisCodes.getD idx 0, v⟩).touches.getD
          (m.slot.getD 0) td0) =
      (axisFields (m.touches.getD (m.slot.getD 0) td0)).set idx v := by
  have hpre := preAbs_eq_self m hstate
  have hlt : m.slot.getD 0 < m.touches.length := by rw [hlen]; exact hslot
  interval_cases idx
  all_goals refine ⟨?_, ?_, ?_, ?_, ?_, ?_, ?_, ?_, ?_, ?_⟩
  all_goals
    first
    | (simp [MTStateMachine.process, hpre, axisCodes, updateTouch, hlen]
       done)
    | (intro j hj
       simp [MTStateMachine.process, hpre, axisCodes, updateTouch,
         List.getD, List.getElem?_set_ne (fun h => hj h.symm)]
       done)
    | (simp [MTStateMachine.process, hpre, axisCodes, updateTouch,
        List.getD, List.getElem?_set_self hlt, axisFields]
       done)

/-- Witness for C8's theorem: a position-X event with value 42 on a fresh
machine. -/
theorem axis_event_updates_exactly_current_slot_witness :
    (freshMT.process ⟨EvKind.absolute, axisCodes.getD 0 0, 42⟩).state =
      freshMT.state ∧
    (freshMT.process ⟨EvKind.absolute, axisCodes.getD 0 0, 42⟩).slot =
      freshMT.slot ∧
    (freshMT.process ⟨EvKind.absolute, axisCodes.getD 0 0, 42⟩).buttons =
      freshMT.buttons ∧
    (freshMT.process
        ⟨EvKind.absolute, axisCodes.getD 0 0, 42⟩).touches.length =
      MAX_TOUCH_POINTS ∧
    (∀ j, j ≠ freshMT.slot.getD 0 →
      (freshMT.process ⟨EvKind.absolute, axisCodes.getD 0 0, 42⟩).touches.getD
          j td0 =
        freshMT.touches.getD j td0) ∧
    ((freshMT.process ⟨EvKind.absolute, axisCodes.getD 0 0, 42⟩).touches.getD
        (freshMT.slot.getD 0) td0).used = true ∧
    ((freshMT.process ⟨EvKind.absolute, axisCodes.getD 0 0, 42⟩).touches.getD
        (freshMT.slot.getD 0) td0).pressed =
      (freshMT.touches.getD (freshMT.slot.getD 0) td0).pressed ∧
    ((freshMT.process ⟨EvKind.absolute, axisCodes.getD 0 0, 42⟩).touches.getD
        (freshMT.slot.getD 0) td0).pressedDouble =
      (freshMT.touches.getD (freshMT.slot.getD 0) td0).pressedDouble ∧
    ((freshMT.process ⟨EvKind.absolute, axisCodes.getD 0 0, 42⟩).touches.getD
        (freshMT.slot.getD 0) td0).trackingId =
      (freshMT.touches.getD (freshMT.slot.getD 0) td0).trackingId ∧
    axisFields
        ((freshMT.process
            ⟨EvKind.absolute, axisCodes.getD 0 0, 42⟩).touches.getD
          (freshMT.slot.getD 0) td0) =
      (axisFields (freshMT.touches.getD (freshMT.slot.getD 0) td0)).set 0
        42 :=
  axis_event_updates_exactly_current_slot freshMT 0 42 (by decide) rfl
    (by decide) (by decide)

/-- `preAbs` performs the reset in the `NeedsReset` state. -/
theorem preAbs_needsReset (m : MTStateMachine)
    (h : m.state = MTState.NeedsReset) : m.preAbs = m.reset := by
  unfold MTStateMachine.preAbs
  rw [h]

/-! ## Claim C10 -/

/-- C10: in a fresh or reset machine the current-slot pointer is unset, and
while it is unset every tracking-id / axis event behaves exactly as if slot
0 were selected (the slot pointer itself stays unset); a slot-select event
whose value is negative or `≥ 10` leaves the machine entirely unchanged. -/
theorem unset_slot_defaults_to_zero :
    freshMT.slot = none ∧
    (∀ m : MTStateMachine, m.reset.slot = none) ∧
    (∀ (m : MTStateMachine) (e : InputEvent), m.slot = none →
        e.kind = EvKind.absolute → e.code ≠ 0x2f →
        (m.process e).slot = none ∧
        (m.process e).touches =
          (({ m with slot := some 0 } : MTStateMachine).process e).touches) ∧
    (∀ (m : MTStateMachine) (v : Int), m.state ≠ MTState.NeedsReset →
        ¬(0 ≤ v ∧ v < (MAX_TOUCH_POINTS : Int)) →
        m.process ⟨EvKind.absolute, 0x2f, v⟩ = m) := by
  refine ⟨rfl, fun m => rfl, ?_, ?_⟩
  · intro m e h0 hk hc
    rcases e with ⟨kind, code, value⟩
    simp only at hk hc
    subst hk
    have hMt : m.preAbs.touches =
        ({ m with slot := some 0 } : MTStateMachine).preAbs.touches := by
      by_cases hs : m.state = MTState.NeedsReset
      · rw [preAbs_needsReset m hs,
          preAbs_needsReset { m with slot := some 0 } hs]
        all_goals exact rfl
      · rw [preAbs_eq_self m hs, preAbs_eq_self { m with slot := some 0 } hs]
        all_goals exact rfl
    have hMs : m.preAbs.slot = none := by
      by_cases hs : m.state = MTState.NeedsReset
      · rw [preAbs_needsReset m hs]
        exact rfl
      · rw [preAbs_eq_self m hs]
        exact h0
    have hIdx : m.preAbs.slot.getD 0 =
        ({ m with slot := some 0 } : MTStateMachine).preAbs.slot.getD 0 := by
      rw [hMs]
      by_cases hs : m.state = MTState.NeedsReset
      · rw [preAbs_needsReset { m with slot := some 0 } hs]
        exact rfl
      · rw [preAbs_eq_self { m with slot := some 0 } hs]
        exact rfl
    simp only [MTStateMachine.process, if_neg hc]
    by_cases h39 : code = 0x39
    · simp only [if_pos h39]
      by_cases hv : value < 0
      · simp only [if_pos hv]
        exact ⟨hMs, by rw [hMt, hIdx]⟩
      · simp only [if_neg hv]
        exact ⟨hMs, by rw [hMt, hIdx]⟩
    · simp only [if_neg h39]
      by_cases hx0 : code = 0x35
      · simp only [if_pos hx0]
        exact ⟨hMs, by rw [hMt, hIdx]⟩
      · simp only [if_neg hx0]
        by_cases hx1 : code = 0x36
        · simp only [if_pos hx1]
          exact ⟨hMs, by rw [hMt, hIdx]⟩
        · simp only [if_neg hx1]
          by_cases hx2 : code = 0x3a
          · simp only [if_pos hx2]
            exact ⟨hMs, by rw [hMt, hIdx]⟩
          · simp only [if_neg hx2]
            by_cases hx3 : code = 0x3b
            · simp only [if_pos hx3]
              exact ⟨hMs, by rw [hMt, hIdx]⟩
            · simp only [if_neg hx3]
              by_cases hx4 : code = 0x30
              · simp only [if_pos hx4]
                exact ⟨hMs, by rw [hMt, hIdx]⟩
              · simp only [if_neg hx4]
                by_cases hx5 : code = 0x31
                · simp only [if_pos hx5]
                  exact ⟨hMs, by rw [hMt, hIdx]⟩
                · simp only [if_neg hx5]
                  by_cases hx6 : code = 0x32
                  · simp only [if_pos hx6]
                    exact ⟨hMs, by rw [hMt, hIdx]⟩
                  · simp only [if_neg hx6]
                    by_cases hx7 : code = 0x33
                    · simp only [if_pos hx7]
                      exact ⟨hMs, by rw [hMt, hIdx]⟩
                    · simp only [if_neg hx7]
                      by_cases hx8 : code = 0x34
                      · simp only [if_pos hx8]
                        exact ⟨hMs, by rw [hMt, hIdx]⟩
                      · simp only [if_neg hx8]
                        by_cases hx9 : code = 0x3c
                        · simp only [if_pos hx9]
                          exact ⟨hMs, by rw [hMt, hIdx]⟩
                        · simp only [if_neg hx9]
                          by_cases hx10 : code = 0x3d
                          · simp only [if_pos hx10]
                            exact ⟨hMs, by rw [hMt, hIdx]⟩
                          · simp only [if_neg hx10]
                            by_cases hx11 : code = 0x37
                            · simp only [if_pos hx11]
                              exact ⟨hMs, by rw [hMt, hIdx]⟩
                            · simp only [if_neg hx11]
                              exact ⟨hMs, by rw [hMt]⟩
  · intro m v hstate hrange
    simp only [MTStateMachine.process, preAbs_eq_self m hstate]
    simp only [if_true]
    rw [if_neg hrange]

/-- Witness for C10's theorem: a tracking-id event on a fresh machine lands
in slot 0, and an out-of-range slot select (−3) is a no-op. -/
theorem unset_slot_defaults_to_zero_witness :
    (freshMT.process ⟨EvKind.absolute, 0x39, 7⟩).slot = none ∧
    (freshMT.process ⟨EvKind.absolute, 0x39, 7⟩).touches =
      (({ freshMT with slot := some 0 } : MTStateMachine).process
        ⟨EvKind.absolute, 0x39, 7⟩).touches ∧
    freshMT.process ⟨EvKind.absolute, 0x2f, -3⟩ = freshMT :=
  ⟨(unset_slot_defaults_to_zero.2.2.1 freshMT ⟨EvKind.absolute, 0x39, 7⟩ rfl
      rfl (by decide)).1,
   (unset_slot_defaults_to_zero.2.2.1 freshMT ⟨EvKind.absolute, 0x39, 7⟩ rfl
      rfl (by decide)).2,
   unset_slot_defaults_to_zero.2.2.2 freshMT (-3) (by decide) (by decide)⟩

/-- `getD` through `drop`. -/
theorem getD_eq_getD_drop :
    ∀ (l : List Nat) (i d : Nat), l.getD i d = (l.drop i).getD 0 d
  | [], i, d => by simp
  | a :: l, 0, d => rfl
  | a :: l, i + 1, d => getD_eq_getD_drop l i d

/-- Every encoded item occupies at least one byte. -/
theorem one_le_length_itemBytes : ∀ it : HidItem, 1 ≤ (itemBytes it).length
  | HidItem.short _ _ => by simp [itemBytes]
  | HidItem.long _ _ => by simp [itemBytes]

/-- An item sequence has at least as many wire bytes as items. -/
theorem length_le_length_itemsBytes :
    ∀ items : List HidItem, items.length ≤ (itemsBytes items).length
  | [] => Nat.le_refl 0
  | it :: rest => by
      have h1 := one_le_length_itemBytes it
      have h2 := length_le_length_itemsBytes rest
      simp only [itemsBytes, List.foldr_cons, List.length_append,
        List.length_cons]
      have heq : rest.foldr (fun it acc => itemBytes it ++ acc) [] =
          itemsBytes rest := rfl
      rw [heq]
      omega

/-- The byte-level scan agrees with the item-level description on every
well-formed encoded item sequence appearing as a suffix of the descriptor,
provided at least one unit of fuel per item. -/
theorem parseRDAux_eq_specScan :
    ∀ (items : List HidItem), (∀ it ∈ items, wfItem it) →
      ∀ (desc : List Nat) (i fuel : Nat) (curId curCount : Option Nat),
        desc.drop i = itemsBytes items →
        items.length ≤ fuel →
        parseRDAux desc fuel i curId curCount =
          specScan items curId curCount := by
  intro items
  induction items with
  | nil =>
      intro _ desc i fuel curId curCount hdrop _
      have hle : desc.length ≤ i := List.drop_eq_nil_iff.mp hdrop
      cases fuel with
      | zero => rfl
      | succ f =>
          simp only [parseRDAux, specScan]
          rw [if_neg (by omega)]
  | cons it rest ih =>
      intro hwf desc i fuel curId curCount hdrop hfuel
      have hwit : wfItem it := hwf it (by simp)
      have hwrest : ∀ x ∈ rest, wfItem x := fun x hx => hwf x (by simp [hx])
      have hib : itemsBytes (it :: rest) = itemBytes it ++ itemsBytes rest :=
        rfl
      rw [hib] at hdrop
      obtain ⟨f, rfl⟩ : ∃ f, fuel = f + 1 :=
        ⟨fuel - 1, by simp at hfuel; omega⟩
      have hflen : rest.length ≤ f := by simp at hfuel; omega
      have hdlen : (desc.drop i).length = desc.length - i :=
        List.length_drop i desc
      have hlti : i < desc.length := by
        have h1 : 1 ≤ (desc.drop i).length := by
          rw [hdrop]
          have := one_le_length_itemBytes it
          simp only [List.length_append]
          omega
        omega
      have hhead : desc.getD i 0 =
          (itemBytes it ++ itemsBytes rest).getD 0 0 := by
        rw [getD_eq_getD_drop, hdrop]
      cases it with
      | long ltag data =>
          obtain ⟨hl256, hdl256, hbytes⟩ := hwit
          have hIB : itemBytes (HidItem.long ltag data) =
              254 :: data.length :: ltag :: data := rfl
          have hb : byteAt desc i = 254 := by
            rw [byteAt, hhead, hIB]
            rfl
          have hb1 : byteAt desc (i + 1) = data.length := by
            have hdd : desc.drop (i + 1) =
                (data.length :: ltag :: data) ++ itemsBytes rest := by
              have h1 : desc.drop (i + 1) = (desc.drop i).drop 1 := by
                rw [List.drop_drop]
              rw [h1, hdrop, hIB]
              rfl
            rw [byteAt, getD_eq_getD_drop, hdd]
            exact Nat.mod_eq_of_lt hdl256
          have hdl : (desc.drop i).length =
              3 + data.length + (itemsBytes rest).length := by
            rw [hdrop, hIB]
            simp only [List.length_append, List.length_cons]
            omega
          have hbound : ¬ (desc.length ≤ i + 2) := by omega
          have hnext : desc.drop (i + 3 + data.length) = itemsBytes rest := by
            have h1 : i + 3 + data.length = i + (3 + data.length) := by omega
            rw [h1, ← List.drop_drop, hdrop, hIB]
            exact List.drop_left' (by simp; omega)
          simp only [parseRDAux, specScan]
          rw [if_pos hlti, hb]
          rw [if_pos (show (254 : Nat) = 254 from rfl), if_neg hbound, hb1]
          exact ih hwrest desc (i + 3 + data.length) f curId curCount hnext
            hflen
      | short tag data =>
          obtain ⟨h256, hmod4, hsizes, hnot254, hbytes⟩ := hwit
          have hkey : ∃ sc, sizeCode data.length = sc ∧ sc ≤ 3 ∧
              (tag + sc) % 4 = sc ∧ (if sc = 3 then 4 else sc) = data.length ∧
              tag + sc ≠ 254 ∧ tag + sc < 256 := by
            rcases hsizes with h | h | h | h
            · exact ⟨0, by rw [h]; decide, by omega, by omega,
                by rw [h]; decide, by omega, by omega⟩
            · exact ⟨1, by rw [h]; decide, by omega, by omega,
                by rw [h]; decide, by omega, by omega⟩
            · refine ⟨2, by rw [h]; decide, by omega, by omega,
                by rw [h]; decide, ?_, by omega⟩
              have : tag ≠ 252 := fun hc => hnot254 ⟨hc, h⟩
              omega
            · exact ⟨3, by rw [h]; decide, by omega, by omega,
                by rw [h]; decide, by omega, by omega⟩
          obtain ⟨sc, hsceq, hsc3, hscmod, hscdec, hsc254, hsclt⟩ := hkey
          have hIB : itemBytes (HidItem.short tag data) =
              (tag + sc) :: data := by
            simp [itemBytes, hsceq]
          have hbm : byteAt desc i = tag + sc := by
            rw [byteAt, hhead, hIB]
            exact Nat.mod_eq_of_lt hsclt
          have hdl : (desc.drop i).length =
              1 + data.length + (itemsBytes rest).length := by
            rw [hdrop, hIB]
            simp only [List.length_append, List.length_cons]
            omega
          have hbound : ¬ (desc.length < i + 1 + data.length) := by omega
          have hdrop1 : desc.drop (i + 1) = data ++ itemsBytes rest := by
            have h1 : desc.drop (i + 1) = (desc.drop i).drop 1 := by
              rw [List.drop_drop]
            rw [h1, hdrop, hIB]
            rfl
          have hdata : (desc.drop (i + 1)).take data.length = data := by
            rw [hdrop1]
            exact List.take_left' rfl
          have hnext : desc.drop (i + 1 + data.length) = itemsBytes rest := by
            have h1 : i + 1 + data.length = i + 1 + data.length := rfl
            have h2 : desc.drop (i + 1 + data.length) =
                (desc.drop (i + 1)).drop data.length := by
              rw [List.drop_drop]
            rw [h2, hdrop1]
            exact List.drop_left' rfl
          have htg : tag + sc - sc = tag := by omega
          simp only [parseRDAux, specScan]
          rw [if_pos hlti, hbm, if_neg hsc254, hscmod, hscdec,
            if_neg hbound, htg, hdata]
          by_cases h84 : tag = 132
          · simp only [if_pos h84]
            exact ih hwrest desc (i + 1 + data.length) f _ curCount hnext
              hflen
          · simp only [if_neg h84]
            by_cases h94 : tag = 148
            · simp only [if_pos h94]
              exact ih hwrest desc (i + 1 + data.length) f curId _ hnext
                hflen
            · simp only [if_neg h94]
              by_cases hB0 : tag = 176
              · simp only [if_pos hB0]
                by_cases hid : curId = some 65
                · simp only [if_pos hid]
                  cases curCount with
                  | none =>
                      exact ih hwrest desc (i + 1 + data.length) f curId none
                        hnext hflen
                  | some c => rfl
                · simp only [if_neg hid]
                  exact ih hwrest desc (i + 1 + data.length) f curId curCount
                    hnext hflen
              · simp only [if_neg hB0]
                exact ih hwrest desc (i + 1 + data.length) f curId curCount
                  hnext hflen

/-- Without a Feature item (tag 0xB0) the item-level scan returns nothing. -/
theorem specScan_none_of_no_feature :
    ∀ (items : List HidItem) (curId curCount : Option Nat),
      (∀ tag data, HidItem.short tag data ∈ items → tag ≠ 0xB0) →
      specScan items curId curCount = none
  | [], _, _, _ => rfl
  | HidItem.long ltag data :: rest, a, b, h => by
      simp only [specScan]
      exact specScan_none_of_no_feature rest a b
        (fun t d hm => h t d (by simp [hm]))
  | HidItem.short tag data :: rest, a, b, h => by
      have htag : tag ≠ 176 := h tag data (by simp)
      have hrest : ∀ t d, HidItem.short t d ∈ rest → t ≠ 0xB0 :=
        fun t d hm => h t d (by simp [hm])
      simp only [specScan]
      by_cases h84 : tag = 132
      · simp only [if_pos h84]
        exact specScan_none_of_no_feature rest _ b hrest
      · simp only [if_neg h84]
        by_cases h94 : tag = 148
        · simp only [if_pos h94]
          exact specScan_none_of_no_feature rest a _ hrest
        · simp only [if_neg h94, if_neg htag]
          exact specScan_none_of_no_feature rest a b hrest

/-! ## Claim C9 -/

/-- C9: on any well-formed encoded item sequence the byte-level
report-descriptor scan behaves exactly as described: short items are walked
by their 1-byte prefix (tag + size bits, size 3 meaning 4 data bytes), a
Report ID item (0x84) sets the context, a Report Count item (0x94) sets the
pending count (little-endian over 1, 2 or 4 bytes), a Feature item (0xB0)
returns the pending count exactly when the context is the burst ID 0x41,
long items (0xFE) are skipped over their 3-byte header plus declared data;
and with no committing Feature item the scan returns nothing. -/
theorem hid_descriptor_scan_correct (items : List HidItem)
    (hwf : ∀ it ∈ items, wfItem it) :
    parseRD (itemsBytes items) = specScan items none none ∧
    ((∀ tag data, HidItem.short tag data ∈ items → tag ≠ 0xB0) →
      parseRD (itemsBytes items) = none) := by
  have h1 : parseRD (itemsBytes items) = specScan items none none := by
    unfold parseRD
    exact parseRDAux_eq_specScan items hwf (itemsBytes items) 0
      (itemsBytes items).length none none rfl
      (length_le_length_itemsBytes items)
  exact ⟨h1,
    fun hnf => h1.trans (specScan_none_of_no_feature items none none hnf)⟩

/-- Witness for C9's theorem: a concrete descriptor — Report ID 0x41, a
long item, Report Count 0x0124, Feature — parses to 292 on both levels. -/
theorem hid_descriptor_scan_correct_witness :
    parseRD (itemsBytes [HidItem.short 0x84 [0x41], HidItem.long 7 [1, 2],
        HidItem.short 0x94 [0x24, 0x01], HidItem.short 0xB0 []]) =
      specScan [HidItem.short 0x84 [0x41], HidItem.long 7 [1, 2],
        HidItem.short 0x94 [0x24, 0x01], HidItem.short 0xB0 []] none none ∧
    specScan [HidItem.short 0x84 [0x41], HidItem.long 7 [1, 2],
        HidItem.short 0x94 [0x24, 0x01], HidItem.short 0xB0 []] none none =
      some 292 :=
  ⟨(hid_descriptor_scan_correct
      [HidItem.short 0x84 [0x41], HidItem.long 7 [1, 2],
       HidItem.short 0x94 [0x24, 0x01], HidItem.short 0xB0 []]
      (by decide)).1, by decide⟩
